import Mathlib

/-!
Shallow embedding of the core of the tutor-support-system repository
(models in `src/models`: Tutor, TutorRepository, Student, StudentRepository,
Session, SessionRepository, TimeSlot, WeeklyPattern), together with proofs
about the matching engine, the availability generator, the slot
capacity/booking operations and the repository lookup semantics.

Numbers from the TypeScript source (`number` fields, always integral in this
code) are modelled as `Int`.  JavaScript `Date` values are modelled at minute
granularity as minutes since the epoch; the date-fns helpers used by the
source (`addDays`, `addMinutes`, `setHours`, `setMinutes`) are modelled on
that representation.
-/

namespace TutorSupport


/-- date-fns `addDays(date, n)`: shift a date by whole days. -/
def addDays (d : Int) (n : Int) : Int :=
  d + 1440 * n

/-- date-fns `addMinutes(date, n)`. -/
def addMinutes (d : Int) (n : Int) : Int :=
  d + n

/-- date-fns `setHours(date, h)`: keep the calendar day (`d - d % 1440`) and
the minute-of-hour component (`(d % 1440) % 60`), set the hour component to
`h`.  `%` is `Int.emod`, which is nonnegative for the positive moduli used
here, matching calendar-component decomposition of a timestamp. -/
def setHours (d : Int) (h : Int) : Int :=
  (d - d % 1440) + h * 60 + (d % 1440) % 60

/-- date-fns `setMinutes(date, m)`: keep day and hour, set the minute. -/
def setMinutes (d : Int) (m : Int) : Int :=
  (d - d % 60) + m

/-- The `SessionModality` / `SlotModality` string union "online" | "in_person". -/
inductive SessionModality where
  | online
  | in_person
deriving DecidableEq, Repr

/-- The modality argument of `TutorRepository.autoMatch`:
"all" | "online" | "in_person". -/
inductive MatchModality where
  | all
  | online
  | in_person
deriving DecidableEq, Repr

/-- The `Tutor` model class (`src/models/Tutor.ts`).  The display-only `bio`
field is carried along for completeness; no behaviour reads it. -/
structure Tutor where
  id : String
  name : String
  email : String
  department : String
  subjects : List String
  rating : ℚ
  totalSessions : Int
  bio : String
  modalities : List SessionModality
deriving DecidableEq, Repr

/-- `Tutor.hasModality`: `this.modalities.includes(modality)`. -/
def Tutor.hasModality (t : Tutor) (m : SessionModality) : Bool :=
  t.modalities.contains m

/-- `Tutor.teachesSubject`:
`this.subjects.some((s) => s.toLowerCase() === subject.toLowerCase())`. -/
def Tutor.teachesSubject (t : Tutor) (subject : String) : Bool :=
  t.subjects.any fun s => s.toLower == subject.toLower

/-- The comparison relation induced by the sort comparator
`(a, b) => b.rating - a.rating` of `autoMatch` (rating descending). -/
def ratingGe (a b : Tutor) : Prop :=
  b.rating ≤ a.rating

instance : DecidableRel ratingGe :=
  fun a b => inferInstanceAs (Decidable (b.rating ≤ a.rating))

instance : IsTotal Tutor ratingGe :=
  ⟨fun a b => le_total b.rating a.rating⟩

instance : IsTrans Tutor ratingGe :=
  ⟨fun _ _ _ h1 h2 => le_trans h2 h1⟩

/-- The parameter record of `TutorRepository.autoMatch`.  `excludeTutorId` is
the optional `excludeTutorId?: string` field (`none` models `undefined`). -/
structure AutoMatchParams where
  subject : String
  modality : MatchModality
  excludeTutorId : Option String
deriving DecidableEq, Repr

/-- The guard `excludeTutorId && tutor.id === excludeTutorId` of the
`autoMatch` candidate filter.  JS truthiness: an `undefined` or empty-string
`excludeTutorId` disables the exclusion. -/
def excludedBy (excludeTutorId : Option String) (t : Tutor) : Bool :=
  match excludeTutorId with
  | none => false
  | some e => !(e == "") && t.id == e

/-- The clause `modality === "all" || tutor.hasModality(modality)` of the
`autoMatch` candidate filter. -/
def modalityFilterMatch (m : MatchModality) (t : Tutor) : Bool :=
  match m with
  | .all => true
  | .online => t.hasModality .online
  | .in_person => t.hasModality .in_person

/-- The candidate filter of `TutorRepository.autoMatch`.  The repository
snapshot is the list `this.findAll()` returns: the values of the backing
`Map` in insertion order. -/
def autoMatchCandidates (tutors : List Tutor) (p : AutoMatchParams) : List Tutor :=
  tutors.filter fun t =>
    if excludedBy p.excludeTutorId t then false
    else (p.subject == "" || t.teachesSubject p.subject) && modalityFilterMatch p.modality t

/-- `TutorRepository.autoMatch`.  `Array.prototype.sort` with the comparator
`(a, b) => b.rating - a.rating` is modelled by the stable
`List.insertionSort` under `ratingGe`; no claim depends on the order of
exact-rating ties. -/
def autoMatch (tutors : List Tutor) (p : AutoMatchParams) :
    Option Tutor × List Tutor :=
  let candidates := autoMatchCandidates tutors p
  if candidates.isEmpty then (none, [])
  else
    match candidates.insertionSort ratingGe with
    | [] => (none, [])
    | recommended :: rest => (some recommended, rest.take 3)

/-- The `TimeSlot` model class (`src/models/TimeSlot.ts`).  The source field
`end` is called `endTime` here (`end` is a Lean keyword).  All mutating
methods of the source construct and return a new `TimeSlot` and never write
to the receiver, so they are modelled as pure functions. -/
structure TimeSlot where
  id : String
  tutorId : String
  patternId : Option String
  start : Int
  endTime : Int
  modality : SessionModality
  capacity : Int
  booked : Int
  isActive : Bool
deriving DecidableEq, Repr

/-- `TimeSlot.isFullyBooked`: `this._booked >= this._capacity`. -/
def TimeSlot.isFullyBooked (s : TimeSlot) : Bool :=
  s.capacity ≤ s.booked

/-- `TimeSlot.toggleActive`. -/
def TimeSlot.toggleActive (s : TimeSlot) : TimeSlot :=
  { s with isActive := !s.isActive }

/-- `TimeSlot.updateCapacity`: `Math.max(newCapacity, this._booked)`. -/
def TimeSlot.updateCapacity (s : TimeSlot) (newCapacity : Int) : TimeSlot :=
  { s with capacity := max newCapacity s.booked }

/-- `TimeSlot.addBooking`; the thrown `Error` is modelled as `Except.error`
with the source's message. -/
def TimeSlot.addBooking (s : TimeSlot) : Except String TimeSlot :=
  if s.isFullyBooked then Except.error "Slot is fully booked"
  else Except.ok { s with booked := s.booked + 1 }

/-- `TimeSlot.removeBooking`: fails when `this._booked <= 0`. -/
def TimeSlot.removeBooking (s : TimeSlot) : Except String TimeSlot :=
  if s.booked ≤ 0 then Except.error "No bookings to remove"
  else Except.ok { s with booked := s.booked - 1 }

/-- The `SessionStatus` string union of `src/types/session.ts`. -/
inductive SessionStatus where
  | upcoming
  | active
  | completed
  | cancelled
  | no_show
deriving DecidableEq, Repr

/-- Attendance status (`"pending" | "present" | "absent"`). -/
inductive Attendance where
  | pending
  | present
  | absent
deriving DecidableEq, Repr

/-- The `Session` model class (`src/models/Session.ts`), restricted to the
fields the session predicates read; display-only fields (names, course,
location, meeting URL, notes) are omitted. -/
structure Session where
  id : String
  tutorId : String
  studentId : String
  modality : SessionModality
  status : SessionStatus
  startTime : Int
  endTime : Int
  feedbackSubmitted : Bool
  attendance : Attendance
deriving DecidableEq, Repr

/-- `Session.canJoin(minutesBefore)` evaluated at the explicit instant `now`
(the source reads `new Date()`): false for cancelled / no-show, otherwise
`isAfter(now, addMinutes(start, -minutesBefore)) && isBefore(now, end)`.
date-fns `isAfter`/`isBefore` are strict comparisons. -/
def Session.canJoin (s : Session) (now : Int) (minutesBefore : Int) : Bool :=
  if s.status == .cancelled || s.status == .no_show then false
  else
    let joinWindow := addMinutes s.startTime (-minutesBefore)
    decide (joinWindow < now) && decide (now < s.endTime)

/-- `Session.canJoin` with its default argument `minutesBefore = 15`. -/
def Session.canJoinDefault (s : Session) (now : Int) : Bool :=
  s.canJoin now 15

/-- `WeeklyPatternInput` (`Omit<WeeklyPatternData, "id" | "tutorId">`),
the argument of `WeeklyPattern.validate`. -/
structure WeeklyPatternInput where
  label : Option String
  days : List Int
  startHour : Int
  startMinute : Int
  endHour : Int
  endMinute : Int
  durationMinutes : Int
  modality : SessionModality
  capacity : Int
  isActive : Bool
deriving DecidableEq, Repr

/-- `WeeklyPattern.validate` (static), check for check in source order; the
source's local `startTotal` / `endTotal` constants are inlined.  A violation
is reported as data (`some message`), never thrown. -/
def WeeklyPattern.validate (input : WeeklyPatternInput) : Option String :=
  if input.days.length = 0 then some "Select at least one weekday."
  else if input.endHour * 60 + input.endMinute ≤ input.startHour * 60 + input.startMinute then
    some "End time must be after start time."
  else if input.durationMinutes < 15 then some "Duration must be at least 15 minutes."
  else if (input.endHour * 60 + input.endMinute) -
      (input.startHour * 60 + input.startMinute) < input.durationMinutes then
    some "Duration must fit within the time range."
  else if input.capacity < 1 then some "Capacity must be at least 1."
  else none

/-- The `WeeklyPattern` model class field record (`WeeklyPatternData` has the
same shape).  The source constructor additionally sorts `days`; that step is
`WeeklyPattern.ofData` below. -/
structure WeeklyPattern where
  id : String
  tutorId : String
  label : Option String
  days : List Int
  startHour : Int
  startMinute : Int
  endHour : Int
  endMinute : Int
  durationMinutes : Int
  modality : SessionModality
  capacity : Int
  isActive : Bool
deriving DecidableEq, Repr

/-- The `WeeklyPattern` constructor: copies all fields and stores
`[...data.days].sort((a, b) => a - b)`, i.e. the days sorted ascending. -/
def WeeklyPattern.ofData (data : WeeklyPattern) : WeeklyPattern :=
  { data with days := data.days.insertionSort (· ≤ ·) }

/-- `WeeklyPattern.startTimeMinutes`. -/
def WeeklyPattern.startTimeMinutes (p : WeeklyPattern) : Int :=
  p.startHour * 60 + p.startMinute

/-- `WeeklyPattern.endTimeMinutes`. -/
def WeeklyPattern.endTimeMinutes (p : WeeklyPattern) : Int :=
  p.endHour * 60 + p.endMinute

/-- `WeeklyPattern.totalRangeMinutes`. -/
def WeeklyPattern.totalRangeMinutes (p : WeeklyPattern) : Int :=
  p.endTimeMinutes - p.startTimeMinutes

/-- `WeeklyPattern.slotsPerDay`:
`Math.floor(this.totalRangeMinutes / this._durationMinutes)` (floor
division). -/
def WeeklyPattern.slotsPerDay (p : WeeklyPattern) : Int :=
  Int.fdiv p.totalRangeMinutes p.durationMinutes

/-- The day-offset computation of `generateSlotsForWeek`:
`dayOfWeek === 0 ? 6 : dayOfWeek - 1` (convert to Mon=0, Sun=6). -/
def dayOffset (dayOfWeek : Int) : Int :=
  if dayOfWeek = 0 then 6 else dayOfWeek - 1

/-- One emitted instant of the generation loop: the source computes
`h = Math.floor(minutes / 60)` and `m = minutes % 60` (JS `%` is the
truncating remainder, `Int.tmod`) and applies
`setMinutes(setHours(date, h), m)`.  `/` on `Int` is floor division for the
positive divisor 60. -/
def jsSlotInstant (date : Int) (minutes : Int) : Int :=
  setMinutes (setHours date (minutes / 60)) (Int.tmod minutes 60)

/-- The `while (currentMinutes + durationMinutes <= endTimeMinutes)` loop of
`generateSlotsForWeek`, one day at a time.  `fuel` bounds the iteration count
so the model is total; `generateSlotsForWeek` passes enough fuel that for any
positive `durationMinutes` the bound is never hit (for
`durationMinutes ≤ 0` the source loop does not terminate; the model stops). -/
def genDayAux (date : Int) (dur endT : Int) : Nat → Int → List (Int × Int)
  | 0, _ => []
  | fuel + 1, cur =>
    if cur + dur ≤ endT then
      (jsSlotInstant date cur, jsSlotInstant date (cur + dur)) ::
        genDayAux date dur endT fuel (cur + dur)
    else []

/-- Fuel for `genDayAux`: one more than the width of the time range, an upper
bound on the iteration count whenever `durationMinutes ≥ 1`. -/
def WeeklyPattern.genFuel (p : WeeklyPattern) : Nat :=
  (p.endTimeMinutes - p.startTimeMinutes).toNat + 1

/-- `WeeklyPattern.generateSlotsForWeek(weekStart)`: empty if inactive,
otherwise for each stored day (in stored order) the slots of that day's
date, emitted by the stepping loop. -/
def WeeklyPattern.generateSlotsForWeek (p : WeeklyPattern) (weekStart : Int) :
    List (Int × Int) :=
  if !p.isActive then []
  else
    p.days.flatMap fun dayOfWeek =>
      genDayAux (addDays weekStart (dayOffset dayOfWeek)) p.durationMinutes
        p.endTimeMinutes p.genFuel p.startTimeMinutes

/-- The per-day slot generation of `generateSlotsForWeek` (the body of its
`for (const dayOfWeek of this._days)` loop). -/
def dayGen (p : WeeklyPattern) (ws : Int) (dayOfWeek : Int) : List (Int × Int) :=
  genDayAux (addDays ws (dayOffset dayOfWeek)) p.durationMinutes
    p.endTimeMinutes p.genFuel p.startTimeMinutes

/-- Comparison of generated slots by start instant, used to express
chronological order of a generated slot list. -/
def slotStartLe (a b : Int × Int) : Prop :=
  a.1 ≤ b.1

instance : DecidableRel slotStartLe :=
  fun a b => inferInstanceAs (Decidable (a.1 ≤ b.1))

instance : IsTrans (Int × Int) slotStartLe :=
  ⟨fun _ _ _ h1 h2 => le_trans h1 h2⟩

/-- A slot list is chronologically sorted when each adjacent pair of slots
has non-decreasing start instants. -/
def chronologicallySorted (l : List (Int × Int)) : Prop :=
  List.Chain' slotStartLe l

instance (l : List (Int × Int)) : Decidable (chronologicallySorted l) :=
  List.decidableChain' l

/-- The `Student` model class (`src/models/Student.ts`). -/
structure Student where
  id : String
  name : String
  email : String
  studentId : String
  program : String
  year : Int
deriving DecidableEq, Repr

/-- The backing `Map<string, α>` of a repository, modelled as an association
list of key/value pairs in insertion order (`initialize` keys each record by
its `id`). -/
abbrev AssocMap (α : Type) := List (String × α)

/-- `Map.prototype.get`: the value stored under the key, if any. -/
def AssocMap.get? {α : Type} (m : AssocMap α) (key : String) : Option α :=
  (m.find? fun e => e.1 == key).map Prod.snd

/-- `StudentRepository.findById`: `this.students.get(id)`, absent-tolerant. -/
def StudentRepository.findById (db : AssocMap Student) (id : String) : Option Student :=
  AssocMap.get? db id

/-- `StudentRepository.getById`: calls `findById` and throws
`Student not found: {id}` when the result is absent. -/
def StudentRepository.getById (db : AssocMap Student) (id : String) :
    Except String Student :=
  match StudentRepository.findById db id with
  | none => Except.error ("Student not found: " ++ id)
  | some s => Except.ok s

/-- `TutorRepository.findById`: `this.tutors.get(id)`, absent-tolerant. -/
def TutorRepository.findById (db : AssocMap Tutor) (id : String) : Option Tutor :=
  AssocMap.get? db id

/-- `SessionRepository.findById`: `this.sessions.get(id)`, absent-tolerant. -/
def SessionRepository.findById (db : AssocMap Session) (id : String) : Option Session :=
  AssocMap.get? db id

/-- Concrete tutor fixture used by witnesses. -/
def tutorAlice : Tutor :=
  { id := "alice", name := "Alice", email := "alice@hcmut.edu.vn",
    department := "Mathematics", subjects := ["Calculus"], rating := 5,
    totalSessions := 40, bio := "", modalities := [.online] }

/-- Concrete tutor fixture used by witnesses. -/
def tutorBob : Tutor :=
  { id := "bob", name := "Bob", email := "bob@hcmut.edu.vn",
    department := "Mathematics", subjects := ["Calculus", "Physics"], rating := 4,
    totalSessions := 25, bio := "", modalities := [.online, .in_person] }

/-- Concrete tutor fixture used by witnesses. -/
def tutorCara : Tutor :=
  { id := "cara", name := "Cara", email := "cara@hcmut.edu.vn",
    department := "Computer Science", subjects := ["Programming"], rating := 3,
    totalSessions := 12, bio := "", modalities := [.in_person] }

/-- A three-tutor repository snapshot for witnesses. -/
def demoTutors : List Tutor :=
  [tutorBob, tutorAlice, tutorCara]

/-- Match-everything parameters for witnesses. -/
def demoParamsAll : AutoMatchParams :=
  { subject := "", modality := .all, excludeTutorId := none }

/-- Parameters excluding the top-rated tutor, for the exclusion witness. -/
def demoParamsEx : AutoMatchParams :=
  { subject := "", modality := .all, excludeTutorId := some "alice" }

/-- The spec scenario pattern: Mon/Wed/Fri, 09:00-12:00, 60-minute slots. -/
def scenarioPattern : WeeklyPattern :=
  { id := "pattern-1", tutorId := "alice", label := none, days := [1, 3, 5],
    startHour := 9, startMinute := 0, endHour := 12, endMinute := 0,
    durationMinutes := 60, modality := .online, capacity := 3, isActive := true }

/-- An active single-day pattern whose end-of-range lies before its
start-of-range (it fails `validate` but the constructor accepts it). -/
def invertedRangePattern : WeeklyPattern :=
  { id := "pattern-2", tutorId := "alice", label := none, days := [1],
    startHour := 10, startMinute := 0, endHour := 9, endMinute := 0,
    durationMinutes := 60, modality := .online, capacity := 1, isActive := true }

/-- An active Sunday+Wednesday pattern generating two 30-minute slots per
day, used to witness the non-chronological output order. -/
def sundayPattern : WeeklyPattern :=
  { id := "pattern-3", tutorId := "alice", label := none, days := [0, 3],
    startHour := 9, startMinute := 0, endHour := 10, endMinute := 0,
    durationMinutes := 30, modality := .online, capacity := 1, isActive := true }

/-- An active Sunday+Monday pattern whose time range is empty, so it
generates no slots at all. -/
def emptySundayPattern : WeeklyPattern :=
  { id := "pattern-4", tutorId := "alice", label := none, days := [0, 3],
    startHour := 9, startMinute := 0, endHour := 9, endMinute := 0,
    durationMinutes := 15, modality := .online, capacity := 1, isActive := true }

/-- An upcoming session starting at minute 600 and ending at minute 660. -/
def demoSession : Session :=
  { id := "session-1", tutorId := "alice", studentId := "student-1",
    modality := .online, status := .upcoming, startTime := 600, endTime := 660,
    feedbackSubmitted := false, attendance := .pending }

/-- A slot with two of three seats booked. -/
def demoSlot : TimeSlot :=
  { id := "slot-1", tutorId := "alice", patternId := some "pattern-1",
    start := 540, endTime := 600, modality := .online, capacity := 3,
    booked := 2, isActive := true }

/-- A slot constructed with a negative `booked` count (nothing in the
constructor forbids it). -/
def negativeBookedSlot : TimeSlot :=
  { id := "slot-2", tutorId := "alice", patternId := none,
    start := 540, endTime := 600, modality := .online, capacity := 5,
    booked := -1, isActive := true }

/-- Unfolding of `autoMatch` through its empty-candidates early return: the
early return coincides with what sorting an empty candidate list gives. -/
lemma autoMatch_eq (tutors : List Tutor) (p : AutoMatchParams) :
    autoMatch tutors p =
      match (autoMatchCandidates tutors p).insertionSort ratingGe with
      | [] => (none, [])
      | recommended :: rest => (some recommended, rest.take 3) := by
  unfold autoMatch
  cases h : (autoMatchCandidates tutors p).isEmpty with
  | false => simp [h]
  | true =>
    have hnil : autoMatchCandidates tutors p = [] := by
      simpa using h
    simp [h, hnil, List.insertionSort]

/-- Anything `autoMatch` outputs (the recommendation or an alternate) is a
member of the filtered candidate list. -/
lemma autoMatch_output_mem (tutors : List Tutor) (p : AutoMatchParams) (t : Tutor) :
    ((autoMatch tutors p).1 = some t → t ∈ autoMatchCandidates tutors p) ∧
    (t ∈ (autoMatch tutors p).2 → t ∈ autoMatchCandidates tutors p) := by
  rw [autoMatch_eq]
  cases h : (autoMatchCandidates tutors p).insertionSort ratingGe with
  | nil => simp
  | cons r rest =>
    have hperm := List.perm_insertionSort ratingGe (autoMatchCandidates tutors p)
    rw [h] at hperm
    constructor
    · intro ht
      simp only [Option.some.injEq] at ht
      exact hperm.mem_iff.mp (ht ▸ List.mem_cons_self r rest)
    · intro ht
      simp only [] at ht
      have : t ∈ rest := List.mem_of_mem_take ht
      exact hperm.mem_iff.mp (List.mem_cons_of_mem r this)

/-- The exclusion guard lets a tutor through exactly when no nonempty
`excludeTutorId` equals its id. -/
lemma excludedBy_eq_false_iff (excl : Option String) (t : Tutor) :
    excludedBy excl t = false ↔ ∀ e, excl = some e → e ≠ "" → t.id ≠ e := by
  cases excl with
  | none => simp [excludedBy]
  | some e =>
    cases he : (e == "") with
    | true =>
      have : e = "" := by simpa using he
      simp [excludedBy, he, this]
    | false =>
      have hne : e ≠ "" := by simpa using he
      cases hid : (t.id == e) with
      | true =>
        have : t.id = e := by simpa using hid
        simp [excludedBy, he, hid, this, hne]
      | false =>
        have hid' : t.id ≠ e := by simpa using hid
        simp [excludedBy, he, hid, hid']

/-- The modality clause of the candidate filter, characterised. -/
lemma modalityFilterMatch_iff (m : MatchModality) (t : Tutor) :
    modalityFilterMatch m t = true ↔
      (m = MatchModality.all ∨
       (m = MatchModality.online ∧ t.hasModality SessionModality.online = true) ∨
       (m = MatchModality.in_person ∧ t.hasModality SessionModality.in_person = true)) := by
  cases m <;> simp [modalityFilterMatch]

/-- Membership in the candidate list of `autoMatch`, characterised by the
three filter clauses. -/
lemma mem_autoMatchCandidates_iff (tutors : List Tutor) (p : AutoMatchParams) (t : Tutor) :
    t ∈ autoMatchCandidates tutors p ↔
      (t ∈ tutors ∧
       (∀ e, p.excludeTutorId = some e → e ≠ "" → t.id ≠ e) ∧
       (p.subject = "" ∨ t.teachesSubject p.subject = true) ∧
       (p.modality = MatchModality.all ∨
        (p.modality = MatchModality.online ∧ t.hasModality SessionModality.online = true) ∨
        (p.modality = MatchModality.in_person ∧ t.hasModality SessionModality.in_person = true))) := by
  rw [autoMatchCandidates, List.mem_filter]
  refine and_congr_right fun _ => ?_
  have hcond :
      ((if excludedBy p.excludeTutorId t then false
        else (p.subject == "" || t.teachesSubject p.subject) &&
          modalityFilterMatch p.modality t) = true) ↔
      (excludedBy p.excludeTutorId t = false ∧
        ((p.subject == "" || t.teachesSubject p.subject) &&
          modalityFilterMatch p.modality t) = true) := by
    cases hex : excludedBy p.excludeTutorId t <;> simp [hex]
  rw [hcond, ← excludedBy_eq_false_iff, ← modalityFilterMatch_iff]
  simp only [Bool.and_eq_true, Bool.or_eq_true, beq_iff_eq]

/-- Claim C1: the candidate set of `autoMatch` is exactly the tutors other
than a nonempty `excludeTutorId` that pass the subject clause (empty subject
or case-insensitive subject membership) and the modality clause ("all" or
the tutor supports the modality); an empty candidate set yields
`(null, [])`; and the excluded tutor id never appears as the recommendation
or among the alternates. -/
theorem autoMatch_candidate_set_spec (tutors : List Tutor) (p : AutoMatchParams) :
    (∀ t, t ∈ autoMatchCandidates tutors p ↔
      (t ∈ tutors ∧
       (∀ e, p.excludeTutorId = some e → e ≠ "" → t.id ≠ e) ∧
       (p.subject = "" ∨ t.teachesSubject p.subject = true) ∧
       (p.modality = MatchModality.all ∨
        (p.modality = MatchModality.online ∧ t.hasModality SessionModality.online = true) ∨
        (p.modality = MatchModality.in_person ∧ t.hasModality SessionModality.in_person = true)))) ∧
    (autoMatchCandidates tutors p = [] → autoMatch tutors p = (none, [])) ∧
    (∀ e, p.excludeTutorId = some e → e ≠ "" →
      (∀ t, (autoMatch tutors p).1 = some t → t.id ≠ e) ∧
      (∀ t, t ∈ (autoMatch tutors p).2 → t.id ≠ e)) := by
  refine ⟨mem_autoMatchCandidates_iff tutors p, ?_, ?_⟩
  · intro h
    rw [autoMatch_eq, h]
    rfl
  · intro e he hne
    have key : ∀ t, t ∈ autoMatchCandidates tutors p → t.id ≠ e := by
      intro t ht
      have := ((mem_autoMatchCandidates_iff tutors p t).mp ht).2.1
      exact this e he hne
    exact ⟨fun t ht => key t ((autoMatch_output_mem tutors p t).1 ht),
           fun t ht => key t ((autoMatch_output_mem tutors p t).2 ht)⟩

/-- Witness for C1 at a concrete repository: excluding the top-rated tutor
"alice" makes "bob" the recommendation, and the theorem yields that the
recommendation cannot carry the excluded id. -/
theorem autoMatch_candidate_set_spec_witness :
    (autoMatch demoTutors demoParamsEx).1 = some tutorBob ∧ tutorBob.id ≠ "alice" :=
  ⟨by decide,
   ((autoMatch_candidate_set_spec demoTutors demoParamsEx).2.2 "alice" rfl
     (by decide)).1 tutorBob (by decide)⟩

/-- Claim C2: the alternates list never exceeds three entries; whenever a
recommendation is returned, the sequence recommendation-then-alternates has
non-increasing ratings and the alternates count is exactly
`min 3 (candidates - 1)`. -/
theorem autoMatch_ranking_bound (tutors : List Tutor) (p : AutoMatchParams) :
    (autoMatch tutors p).2.length ≤ 3 ∧
    (∀ r alts, autoMatch tutors p = (some r, alts) →
      List.Chain' ratingGe (r :: alts) ∧
      alts.length = min 3 ((autoMatchCandidates tutors p).length - 1)) := by
  rw [autoMatch_eq]
  cases h : (autoMatchCandidates tutors p).insertionSort ratingGe with
  | nil => simp
  | cons r rest =>
    have hsorted := List.sorted_insertionSort ratingGe (autoMatchCandidates tutors p)
    rw [h] at hsorted
    have hlen : (autoMatchCandidates tutors p).length = rest.length + 1 := by
      rw [← (List.perm_insertionSort ratingGe (autoMatchCandidates tutors p)).length_eq, h]
      simp
    constructor
    · simp [List.length_take]
    · intro r' alts heq
      simp only [Prod.mk.injEq, Option.some.injEq] at heq
      obtain ⟨hr, halts⟩ := heq
      subst hr
      subst halts
      constructor
      · have hsub : (r :: rest.take 3).Sublist (r :: rest) :=
          (List.take_sublist 3 rest).cons₂ r
        exact (List.Pairwise.sublist hsub hsorted).chain'
      · rw [List.length_take, hlen]
        simp

/-- Witness for C2 at the three-tutor fixture: the ranking is Alice (5),
Bob (4), Cara (3), and the alternates count is `min 3 (3-1) = 2`. -/
theorem autoMatch_ranking_bound_witness :
    List.Chain' ratingGe (tutorAlice :: [tutorBob, tutorCara]) ∧
    [tutorBob, tutorCara].length = min 3 ((autoMatchCandidates demoTutors demoParamsAll).length - 1) :=
  (autoMatch_ranking_bound demoTutors demoParamsAll).2 tutorAlice [tutorBob, tutorCara]
    (by decide)

/-- Claim C7: both `autoMatch` and `generateSlotsForWeek` are pure: equal
repository snapshots and parameters give equal match results, and equal
patterns and week starts give identical slot sequences. -/
theorem autoMatch_generateSlots_deterministic :
    (∀ (tutors tutors' : List Tutor) (p p' : AutoMatchParams),
      tutors = tutors' → p = p' → autoMatch tutors p = autoMatch tutors' p') ∧
    (∀ (pat pat' : WeeklyPattern) (ws ws' : Int),
      pat = pat' → ws = ws' →
      pat.generateSlotsForWeek ws = pat'.generateSlotsForWeek ws') :=
  ⟨fun _ _ _ _ h1 h2 => by rw [h1, h2],
   fun _ _ _ _ h1 h2 => by rw [h1, h2]⟩

/-- Witness for C7 at concrete inputs. -/
theorem autoMatch_generateSlots_deterministic_witness :
    autoMatch demoTutors demoParamsAll = autoMatch demoTutors demoParamsAll ∧
    scenarioPattern.generateSlotsForWeek 0 = scenarioPattern.generateSlotsForWeek 0 :=
  ⟨autoMatch_generateSlots_deterministic.1 demoTutors demoTutors demoParamsAll demoParamsAll
     rfl rfl,
   autoMatch_generateSlots_deterministic.2 scenarioPattern scenarioPattern 0 0 rfl rfl⟩

/-- Claim C4: all slot mutators preserve the capacity floor
`booked ≤ capacity`, and `updateCapacity n` stores `max n booked`, so the
capacity is never forced below the current booking count.  Every mutator is
a pure function returning a fresh record, so the receiver is untouched. -/
theorem timeSlot_capacity_floor (s : TimeSlot) (h : s.booked ≤ s.capacity) :
    (s.toggleActive.booked ≤ s.toggleActive.capacity) ∧
    (∀ n : Int, (s.updateCapacity n).booked ≤ (s.updateCapacity n).capacity ∧
      (s.updateCapacity n).capacity = max n s.booked) ∧
    (∀ s', s.addBooking = Except.ok s' → s'.booked ≤ s'.capacity) ∧
    (∀ s', s.removeBooking = Except.ok s' → s'.booked ≤ s'.capacity) := by
  refine ⟨h, fun n => ⟨le_max_right n s.booked, rfl⟩, ?_, ?_⟩
  · intro s' hs'
    unfold TimeSlot.addBooking at hs'
    by_cases hb : s.capacity ≤ s.booked
    · simp [TimeSlot.isFullyBooked, hb] at hs'
    · simp [TimeSlot.isFullyBooked, hb] at hs'
      subst hs'
      simp only [TimeSlot.booked, TimeSlot.capacity]
      omega
  · intro s' hs'
    unfold TimeSlot.removeBooking at hs'
    by_cases hb : s.booked ≤ 0
    · simp [hb] at hs'
    · simp [hb] at hs'
      subst hs'
      simp only [TimeSlot.booked, TimeSlot.capacity]
      omega

/-- Witness for C4: adding a booking to a 2-of-3 slot keeps the floor. -/
theorem timeSlot_capacity_floor_witness :
    demoSlot.booked ≤ demoSlot.capacity ∧
    (∀ s', demoSlot.addBooking = Except.ok s' → s'.booked ≤ s'.capacity) :=
  ⟨by decide, (timeSlot_capacity_floor demoSlot (by decide)).2.2.1⟩

/-- Counterexample to claim C5 as stated: a slot constructed with
`booked = -1` makes `removeBooking` fail (the source guard is
`booked <= 0`), although its `booked` is not `0`. -/
theorem removeBooking_nonzero_counterexample :
    negativeBookedSlot.booked ≠ 0 ∧
    negativeBookedSlot.removeBooking = Except.error "No bookings to remove" :=
  ⟨by decide, rfl⟩

/-- Claim C5 (amended): `addBooking` fails exactly when `capacity ≤ booked`
and otherwise returns the slot with `booked` incremented; `removeBooking`
fails exactly when `booked ≤ 0` (not only when it is exactly `0`) and
otherwise returns the slot with `booked` decremented.  Both return fresh
records whose other fields are those of the receiver, which is never
mutated (the operations are pure functions of the receiver). -/
theorem timeSlot_booking_transitions (s : TimeSlot) :
    (s.addBooking = Except.error "Slot is fully booked" ↔ s.capacity ≤ s.booked) ∧
    (∀ s', s.addBooking = Except.ok s' ↔
      (s.booked < s.capacity ∧ s' = { s with booked := s.booked + 1 })) ∧
    (s.removeBooking = Except.error "No bookings to remove" ↔ s.booked ≤ 0) ∧
    (∀ s', s.removeBooking = Except.ok s' ↔
      (0 < s.booked ∧ s' = { s with booked := s.booked - 1 })) := by
  refine ⟨?_, ?_, ?_, ?_⟩
  · by_cases hb : s.capacity ≤ s.booked <;>
      simp [TimeSlot.addBooking, TimeSlot.isFullyBooked, hb]
  · intro s'
    by_cases hb : s.capacity ≤ s.booked
    · simp only [TimeSlot.addBooking, TimeSlot.isFullyBooked]
      rw [if_pos (by simpa using hb)]
      constructor
      · intro h
        simp at h
      · intro ⟨h1, _⟩
        omega
    · simp only [TimeSlot.addBooking, TimeSlot.isFullyBooked]
      rw [if_neg (by simpa using hb)]
      constructor
      · intro h
        simp only [Except.ok.injEq] at h
        exact ⟨by omega, h.symm⟩
      · intro ⟨_, h2⟩
        rw [h2]
  · by_cases hb : s.booked ≤ 0 <;> simp [TimeSlot.removeBooking, hb]
  · intro s'
    by_cases hb : s.booked ≤ 0
    · simp only [TimeSlot.removeBooking]
      rw [if_pos hb]
      constructor
      · intro h
        simp at h
      · intro ⟨h1, _⟩
        omega
    · simp only [TimeSlot.removeBooking]
      rw [if_neg hb]
      constructor
      · intro h
        simp only [Except.ok.injEq] at h
        exact ⟨by omega, h.symm⟩
      · intro ⟨_, h2⟩
        rw [h2]

/-- Claim C6: `WeeklyPattern.validate` returns `null` exactly when all five
structural rules hold (some day selected, end strictly after start, duration
at least 15 minutes, duration within the range, capacity at least 1), and
returns a message as data exactly when some rule is violated. -/
theorem validate_spec (input : WeeklyPatternInput) :
    (WeeklyPattern.validate input = none ↔
      (input.days ≠ [] ∧
       input.startHour * 60 + input.startMinute < input.endHour * 60 + input.endMinute ∧
       15 ≤ input.durationMinutes ∧
       input.durationMinutes ≤ (input.endHour * 60 + input.endMinute) -
         (input.startHour * 60 + input.startMinute) ∧
       1 ≤ input.capacity)) ∧
    ((∃ msg, WeeklyPattern.validate input = some msg) ↔
      ¬ (input.days ≠ [] ∧
       input.startHour * 60 + input.startMinute < input.endHour * 60 + input.endMinute ∧
       15 ≤ input.durationMinutes ∧
       input.durationMinutes ≤ (input.endHour * 60 + input.endMinute) -
         (input.startHour * 60 + input.startMinute) ∧
       1 ≤ input.capacity)) := by
  have h1 : WeeklyPattern.validate input = none ↔
      (input.days ≠ [] ∧
       input.startHour * 60 + input.startMinute < input.endHour * 60 + input.endMinute ∧
       15 ≤ input.durationMinutes ∧
       input.durationMinutes ≤ (input.endHour * 60 + input.endMinute) -
         (input.startHour * 60 + input.startMinute) ∧
       1 ≤ input.capacity) := by
    unfold WeeklyPattern.validate
    split_ifs with hd he hdur hfit hcap
    · exact iff_of_false (by simp) (fun hc => hc.1 (List.length_eq_zero.mp hd))
    · exact iff_of_false (by simp) (fun hc => by have := hc.2.1; omega)
    · exact iff_of_false (by simp) (fun hc => by have := hc.2.2.1; omega)
    · exact iff_of_false (by simp) (fun hc => by have := hc.2.2.2.1; omega)
    · exact iff_of_false (by simp) (fun hc => by have := hc.2.2.2.2; omega)
    · refine iff_of_true rfl ⟨?_, by omega, by omega, by omega, by omega⟩
      intro hnil
      exact hd (by simp [hnil])
  refine ⟨h1, ?_⟩
  rw [← h1]
  cases hv : WeeklyPattern.validate input <;> simp

/-- Counterexample to claim C8 as stated: at `now = startTime - 15` exactly
(the left endpoint of the claimed closed-open window) the source's strict
`isAfter` makes `canJoin` return false, although the claim requires true. -/
theorem canJoin_boundary_counterexample :
    demoSession.canJoinDefault (demoSession.startTime - 15) = false ∧
    demoSession.status ≠ SessionStatus.cancelled ∧
    demoSession.status ≠ SessionStatus.no_show ∧
    demoSession.startTime - 15 ≤ demoSession.startTime - 15 ∧
    demoSession.startTime - 15 < demoSession.endTime := by
  decide

/-- Claim C8 (amended): `canJoin(minutesBefore)` (default 15) is false for
cancelled or no-show sessions, and otherwise true iff `now` lies in the
open-left window `(startTime - minutesBefore, endTime)`: both comparisons of
the source (`isAfter`, `isBefore`) are strict, so the instant exactly
`minutesBefore` before the start is excluded. -/
theorem canJoin_window_spec (s : Session) (now : Int) (minutesBefore : Int) :
    s.canJoinDefault now = s.canJoin now 15 ∧
    ((s.status = SessionStatus.cancelled ∨ s.status = SessionStatus.no_show) →
      s.canJoin now minutesBefore = false) ∧
    (s.status ≠ SessionStatus.cancelled → s.status ≠ SessionStatus.no_show →
      (s.canJoin now minutesBefore = true ↔
        (s.startTime - minutesBefore < now ∧ now < s.endTime))) := by
  refine ⟨rfl, ?_, ?_⟩
  · intro h
    unfold Session.canJoin
    rcases h with h | h <;> simp [h]
  · intro h1 h2
    have hst : (s.status == SessionStatus.cancelled ||
        s.status == SessionStatus.no_show) = false := by
      simp [h1, h2]
    simp [Session.canJoin, hst, addMinutes]
    omega

/-- Witness for C8 (amended) inside the window: 650 lies strictly between
585 and 660, so the session can be joined. -/
theorem canJoin_window_spec_witness :
    demoSession.canJoin 650 15 = true :=
  ((canJoin_window_spec demoSession 650 15).2.2 (by decide) (by decide)).mpr (by decide)

/-- A Map lookup misses exactly when no entry carries the key. -/
lemma AssocMap.get?_eq_none_iff {α : Type} (m : AssocMap α) (key : String) :
    AssocMap.get? m key = none ↔ ∀ e ∈ m, e.1 ≠ key := by
  unfold AssocMap.get?
  simp [Option.map_eq_none', List.find?_eq_none]

/-- Claim C9: `getById` (defined on the student repository) fails with the
NotFound error exactly on the keys where the safe `findById` is absent,
returns exactly what `findById` finds otherwise, and the `findById` lookups
of all three repositories are total functions into `Option` that are absent
exactly when no stored entry carries the key — the `find*` = safe,
`get*` = asserting distinction. -/
theorem repository_lookup_semantics (sdb : AssocMap Student) (tdb : AssocMap Tutor)
    (xdb : AssocMap Session) (id : String) :
    (StudentRepository.getById sdb id = Except.error ("Student not found: " ++ id) ↔
      StudentRepository.findById sdb id = none) ∧
    (∀ st, StudentRepository.getById sdb id = Except.ok st ↔
      StudentRepository.findById sdb id = some st) ∧
    (StudentRepository.findById sdb id = none ↔ ∀ e ∈ sdb, e.1 ≠ id) ∧
    (TutorRepository.findById tdb id = none ↔ ∀ e ∈ tdb, e.1 ≠ id) ∧
    (SessionRepository.findById xdb id = none ↔ ∀ e ∈ xdb, e.1 ≠ id) := by
  refine ⟨?_, ?_, AssocMap.get?_eq_none_iff sdb id, AssocMap.get?_eq_none_iff tdb id,
    AssocMap.get?_eq_none_iff xdb id⟩
  · unfold StudentRepository.getById
    cases h : StudentRepository.findById sdb id <;> simp [h]
  · intro st
    unfold StudentRepository.getById
    cases h : StudentRepository.findById sdb id <;> simp [h]

/-- Pointwise-equal generators produce the same concatenation. -/
lemma flatMap_congr {α β : Type} (l : List α) (f g : α → List β)
    (h : ∀ a ∈ l, f a = g a) : l.flatMap f = l.flatMap g := by
  induction l with
  | nil => rfl
  | cons a t ih =>
    rw [List.flatMap_cons, List.flatMap_cons, h a (List.mem_cons_self a t),
      ih fun x hx => h x (List.mem_cons_of_mem a hx)]

/-- Equation lemma: the generation loop with no fuel left. -/
lemma genDayAux_zero (date dur endT cur : Int) :
    genDayAux date dur endT 0 cur = [] := rfl

/-- Equation lemma: one unfolding of the generation loop. -/
lemma genDayAux_succ (date dur endT : Int) (n : Nat) (cur : Int) :
    genDayAux date dur endT (n + 1) cur =
      if cur + dur ≤ endT then
        (jsSlotInstant date cur, jsSlotInstant date (cur + dur)) ::
          genDayAux date dur endT n (cur + dur)
      else [] := rfl

/-- Closed form of the generation loop: with positive step `dur` and enough
fuel, walking from `cur` emits exactly `(endT - cur).toNat / dur.toNat`
slots, the i-th spanning `[cur + i*dur, cur + (i+1)*dur]`. -/
lemma genDayAux_closed (date dur endT : Int) (hdur : 0 < dur) :
    ∀ (fuel : Nat) (cur : Int), (endT - cur).toNat ≤ fuel →
      genDayAux date dur endT fuel cur =
        (List.range ((endT - cur).toNat / dur.toNat)).map
          (fun i : Nat => (jsSlotInstant date (cur + (i : Int) * dur),
                     jsSlotInstant date (cur + ((i : Int) + 1) * dur))) := by
  intro fuel
  induction fuel with
  | zero =>
    intro cur hf
    have h0 : (endT - cur).toNat = 0 := Nat.le_zero.mp hf
    rw [genDayAux_zero, h0]
    simp
  | succ n ih =>
    intro cur hf
    rw [genDayAux_succ]
    by_cases hstep : cur + dur ≤ endT
    · rw [if_pos hstep]
      have hN : dur.toNat ≤ (endT - cur).toNat := by omega
      have hsub : (endT - cur).toNat - dur.toNat = (endT - (cur + dur)).toNat := by
        omega
      have hcount : (endT - cur).toNat / dur.toNat =
          (endT - (cur + dur)).toNat / dur.toNat + 1 := by
        rw [Nat.div_eq_sub_div (by omega) hN, hsub]
      have hf' : (endT - (cur + dur)).toNat ≤ n := by omega
      rw [ih (cur + dur) hf', hcount, List.range_succ_eq_map]
      rw [List.map_cons, List.map_map]
      congr 1
      · norm_num
      · apply List.map_congr_left
        intro i _
        simp only [Function.comp_apply, Prod.mk.injEq]
        constructor
        · congr 1
          push_cast
          ring
        · congr 1
          push_cast
          ring
    · rw [if_neg hstep]
      have hlt : (endT - cur).toNat < dur.toNat := by omega
      rw [Nat.div_eq_of_lt hlt]
      simp

/-- The first slot of a day is emitted whenever one step fits the range. -/
lemma genDayAux_first_mem (date dur endT : Int) (n : Nat) (cur : Int)
    (hfit : cur + dur ≤ endT) :
    (jsSlotInstant date cur, jsSlotInstant date (cur + dur)) ∈
      genDayAux date dur endT (n + 1) cur := by
  rw [genDayAux_succ, if_pos hfit]
  exact List.mem_cons_self _ _

/-- `generateSlotsForWeek` is the concatenation of the per-day generations,
in stored day order. -/
lemma generateSlotsForWeek_eq_dayGen (p : WeeklyPattern) (ws : Int) :
    p.generateSlotsForWeek ws =
      if !p.isActive then [] else p.days.flatMap (dayGen p ws) := rfl

/-- Truncation of a nonnegative floor quotient commutes with `toNat`. -/
lemma toNat_ediv_eq {a b : Int} (ha : 0 ≤ a) (hb : 0 < b) :
    (a / b).toNat = a.toNat / b.toNat := by
  lift a to ℕ using ha
  lift b to ℕ using hb.le
  rw [← Int.natCast_div, Int.toNat_ofNat]
  simp

/-- With a nonnegative range and positive duration, the per-day slot count of
the loop is the source's `slotsPerDay` value. -/
lemma count_eq_slotsPerDay (p : WeeklyPattern) (hdur : 0 < p.durationMinutes)
    (hrange : p.startTimeMinutes ≤ p.endTimeMinutes) :
    (p.endTimeMinutes - p.startTimeMinutes).toNat / p.durationMinutes.toNat =
      p.slotsPerDay.toNat := by
  unfold WeeklyPattern.slotsPerDay WeeklyPattern.totalRangeMinutes
  rw [Int.fdiv_eq_ediv _ (by omega)]
  rw [toNat_ediv_eq (by omega) hdur]

/-- Claim C3: `generateSlotsForWeek` of an inactive pattern is empty; for an
active pattern with positive duration and a nonnegative time range the
output is, day by stored day, the closed-form stepping sequence starting at
`startHour:startMinute` on the date `weekStart + (d == 0 ? 6 : d-1)` days,
with exactly `slotsPerDay = floor(range / duration)` slots per day, and the
weekly total is that count times the number of (distinct) selected days.
The nonnegative-range hypothesis is required (see the counterexample). -/
theorem generateSlotsForWeek_spec (p : WeeklyPattern) (ws : Int) :
    (p.isActive = false → p.generateSlotsForWeek ws = []) ∧
    (p.isActive = true → 0 < p.durationMinutes →
      p.startTimeMinutes ≤ p.endTimeMinutes →
      (p.generateSlotsForWeek ws =
        p.days.flatMap fun d =>
          (List.range p.slotsPerDay.toNat).map fun i : Nat =>
            (jsSlotInstant (addDays ws (dayOffset d))
               (p.startTimeMinutes + (i : Int) * p.durationMinutes),
             jsSlotInstant (addDays ws (dayOffset d))
               (p.startTimeMinutes + ((i : Int) + 1) * p.durationMinutes))) ∧
      (p.days.Nodup →
        (p.generateSlotsForWeek ws).length = p.slotsPerDay.toNat * p.days.length)) := by
  constructor
  · intro h
    rw [generateSlotsForWeek_eq_dayGen, h]
    rfl
  · intro hact hdur hrange
    have hmain : p.generateSlotsForWeek ws =
        p.days.flatMap fun d =>
          (List.range p.slotsPerDay.toNat).map fun i : Nat =>
            (jsSlotInstant (addDays ws (dayOffset d))
               (p.startTimeMinutes + (i : Int) * p.durationMinutes),
             jsSlotInstant (addDays ws (dayOffset d))
               (p.startTimeMinutes + ((i : Int) + 1) * p.durationMinutes)) := by
      rw [generateSlotsForWeek_eq_dayGen, hact]
      simp only [Bool.not_true, Bool.false_eq_true, if_false]
      apply flatMap_congr
      intro d _
      unfold dayGen
      rw [genDayAux_closed (addDays ws (dayOffset d)) p.durationMinutes p.endTimeMinutes
        hdur p.genFuel p.startTimeMinutes (by unfold WeeklyPattern.genFuel; omega)]
      rw [count_eq_slotsPerDay p hdur hrange]
    refine ⟨hmain, ?_⟩
    intro _
    rw [hmain, List.length_flatMap]
    have hlen : ∀ d ∈ p.days,
        (List.length ∘ fun d =>
          (List.range p.slotsPerDay.toNat).map fun i : Nat =>
            (jsSlotInstant (addDays ws (dayOffset d))
               (p.startTimeMinutes + (i : Int) * p.durationMinutes),
             jsSlotInstant (addDays ws (dayOffset d))
               (p.startTimeMinutes + ((i : Int) + 1) * p.durationMinutes))) d =
          p.slotsPerDay.toNat := by
      intro d _
      simp
    rw [List.map_congr_left hlen]
    simp [List.map_const]
    ring

/-- Witness for C3 at the spec scenario pattern (Mon/Wed/Fri, 09:00-12:00,
hour-long slots): the weekly total is `slotsPerDay * 3 = 9`. -/
theorem generateSlotsForWeek_spec_witness :
    (scenarioPattern.generateSlotsForWeek 0).length =
      scenarioPattern.slotsPerDay.toNat * scenarioPattern.days.length ∧
    scenarioPattern.slotsPerDay.toNat * scenarioPattern.days.length = 9 :=
  ⟨((generateSlotsForWeek_spec scenarioPattern 0).2 (by decide) (by decide)
      (by decide)).2 (by decide),
   by decide⟩

/-- Counterexample to the slot-count law of claim C3 as stated: an active
pattern whose end-of-range precedes its start-of-range generates zero slots
although `floor(range / duration)` is `-1`, so the per-day count does not
equal the floor without a nonnegative-range hypothesis. -/
theorem slotCount_inverted_range_counterexample :
    invertedRangePattern.isActive = true ∧
    0 < invertedRangePattern.durationMinutes ∧
    invertedRangePattern.days.Nodup ∧
    invertedRangePattern.generateSlotsForWeek 0 = [] ∧
    invertedRangePattern.slotsPerDay = -1 ∧
    ¬(((invertedRangePattern.generateSlotsForWeek 0).length : Int) =
      invertedRangePattern.slotsPerDay * (invertedRangePattern.days.length : Int)) := by
  decide

/-- In an ascending-sorted list, every occurrence of a strictly larger
member sits to the right of some occurrence of the smaller one. -/
lemma sorted_split_of_lt :
    ∀ (l : List Int), List.Sorted (· ≤ ·) l → ∀ x y : Int, x ∈ l → y ∈ l → x < y →
      ∃ l₁ l₂, l = l₁ ++ x :: l₂ ∧ y ∈ l₂ := by
  intro l
  induction l with
  | nil => intro _ x y hx _ _; cases hx
  | cons a t ih =>
    intro hs x y hx hy hxy
    rw [List.sorted_cons] at hs
    obtain ⟨ha, hst⟩ := hs
    rcases List.mem_cons.mp hx with hxa | hxt
    · subst hxa
      rcases List.mem_cons.mp hy with hya | hyt
      · subst hya
        omega
      · exact ⟨[], t, rfl, hyt⟩
    · rcases List.mem_cons.mp hy with hya | hyt
      · subst hya
        exact absurd (ha x hxt) (by omega)
      · obtain ⟨l₁, l₂, heq, hyl₂⟩ := ih hst x y hxt hyt hxy
        exact ⟨a :: l₁, l₂, by rw [heq]; rfl, hyl₂⟩

/-- Shifting the target date by whole days shifts every emitted instant by
the same amount. -/
lemma jsSlotInstant_addDays (date k m : Int) :
    jsSlotInstant (date + 1440 * k) m = jsSlotInstant date m + 1440 * k := by
  unfold jsSlotInstant setHours setMinutes
  generalize Int.tmod m 60 = t
  omega

/-- Claim C10 (amended): the constructor stores the day set sorted ascending
and `generateSlotsForWeek` emits one contiguous block per stored day in that
order; consequently, for every active pattern whose day set contains Sunday
together with another day `d` in 1..6 and which emits at least one slot per
day (any pattern passing `validate` does), the output is not chronologically
sorted: Sunday sorts first but its block carries the latest dates. -/
theorem generateSlots_day_blocks (data : WeeklyPattern) (ws : Int) :
    ((data.ofData).days = data.days.insertionSort (· ≤ ·)) ∧
    List.Sorted (· ≤ ·) (data.ofData).days ∧
    ((data.ofData).isActive = true →
      (data.ofData).generateSlotsForWeek ws =
        ((data.ofData).days).flatMap (dayGen data ws)) ∧
    (∀ d : Int, data.isActive = true → 0 ∈ data.days → d ∈ data.days →
      1 ≤ d → d ≤ 6 → 0 < data.durationMinutes →
      data.startTimeMinutes + data.durationMinutes ≤ data.endTimeMinutes →
      ¬ chronologicallySorted ((data.ofData).generateSlotsForWeek ws)) := by
  have hdays : (data.ofData).days = data.days.insertionSort (· ≤ ·) := rfl
  have hsorted : List.Sorted (· ≤ ·) (data.ofData).days := by
    rw [hdays]
    exact List.sorted_insertionSort (· ≤ ·) data.days
  have hshape : (data.ofData).isActive = true →
      (data.ofData).generateSlotsForWeek ws =
        ((data.ofData).days).flatMap (dayGen data ws) := by
    intro hact
    rw [generateSlotsForWeek_eq_dayGen, hact]
    rfl
  refine ⟨hdays, hsorted, hshape, ?_⟩
  intro d hact h0 hd hd1 hd6 hdur hfit hchain
  have hperm := List.perm_insertionSort (· ≤ ·) data.days
  have h0s : (0 : Int) ∈ (data.ofData).days := by
    rw [hdays]
    exact hperm.mem_iff.mpr h0
  have hds : d ∈ (data.ofData).days := by
    rw [hdays]
    exact hperm.mem_iff.mpr hd
  obtain ⟨l₁, l₂, hsplit, hdl₂⟩ :=
    sorted_split_of_lt (data.ofData).days hsorted 0 d h0s hds (by omega)
  rw [hshape hact, hsplit, List.flatMap_append, List.flatMap_cons,
    ← List.append_assoc] at hchain
  have hpair := (List.chain'_iff_pairwise).mp hchain
  have h3 := (List.pairwise_append.mp hpair).2.2
  have hfuel : data.genFuel =
      (data.endTimeMinutes - data.startTimeMinutes).toNat + 1 := rfl
  have hsunMem : (jsSlotInstant (addDays ws (dayOffset 0)) data.startTimeMinutes,
      jsSlotInstant (addDays ws (dayOffset 0))
        (data.startTimeMinutes + data.durationMinutes)) ∈ dayGen data ws 0 := by
    unfold dayGen
    rw [hfuel]
    exact genDayAux_first_mem _ _ _ _ _ hfit
  have hdMem : (jsSlotInstant (addDays ws (dayOffset d)) data.startTimeMinutes,
      jsSlotInstant (addDays ws (dayOffset d))
        (data.startTimeMinutes + data.durationMinutes)) ∈ l₂.flatMap (dayGen data ws) := by
    refine List.mem_flatMap.mpr ⟨d, hdl₂, ?_⟩
    unfold dayGen
    rw [hfuel]
    exact genDayAux_first_mem _ _ _ _ _ hfit
  have hle := h3 _ (List.mem_append_right _ hsunMem) _ hdMem
  unfold slotStartLe at hle
  have ho0 : dayOffset 0 = 6 := rfl
  have hod : dayOffset d = d - 1 := by
    unfold dayOffset
    rw [if_neg (by omega)]
  rw [ho0, hod] at hle
  unfold addDays at hle
  rw [jsSlotInstant_addDays ws 6 data.startTimeMinutes,
    jsSlotInstant_addDays ws (d - 1) data.startTimeMinutes] at hle
  simp only [] at hle
  omega

/-- Witness for C10 at an active Sunday+Wednesday pattern with two slots per
day: its generated list is not chronologically sorted. -/
theorem generateSlots_day_blocks_witness :
    ¬ chronologicallySorted ((sundayPattern.ofData).generateSlotsForWeek 0) :=
  (generateSlots_day_blocks sundayPattern 0).2.2.2 3 (by decide) (by decide)
    (by decide) (by decide) (by decide) (by decide) (by decide)

/-- Counterexample to claim C10 as stated: an active pattern containing
Sunday and Wednesday whose time range is empty generates no slots, and the
empty list is chronologically sorted, so "contains Sunday together with
another day" alone does not force an unsorted output. -/
theorem sunday_order_counterexample :
    (emptySundayPattern.ofData).isActive = true ∧
    (0 : Int) ∈ (emptySundayPattern.ofData).days ∧
    (3 : Int) ∈ (emptySundayPattern.ofData).days ∧
    chronologicallySorted ((emptySundayPattern.ofData).generateSlotsForWeek 0) := by
  decide

end TutorSupport
